import Mathlib

/-!
Shallow embedding of `discovery.py` (pyflexapi): a UDP discovery listener
(`FlexRadioDiscoveryListener`) and the packet record
(`FlexRadioDiscoveryPacket`).  Python strings are modelled as lists of code
points (`List Nat`), raw datagram payloads as lists of bytes (`List Nat`).
The decode pipeline is translated operation by operation from the source:

  plist = str(packet[0][28:]).split(" ")
  for item in plist:
      key, value = item.split("=")
      if "b'" in key: key = key.replace("b'", "")
      self._packet_values[key] = value
  return FlexRadioDiscoveryPacket(self._packet_values)

`str` applied to a bytes object yields the Python repr (the `b` marker, a
quote delimiter, backslash escapes), which is modelled byte for byte by
`pyReprBytes`.  The listener state `self._packet_values` is an
insertion-ordered dictionary created once at construction, modelled as an
association list with Python dict update semantics (`dictInsert`).
-/

/-- Code points of a Lean string literal; used to write Python strings. -/
def pyStr (s : String) : List Nat := s.toList.map Char.toNat

/-- The 28 header bytes that the decoder skips (`packet[0][28:]`). -/
def hdr28 : List Nat := List.replicate 28 0

/-- Helper for `pySplit`: prepend an element to the first chunk. -/
def consHead (c : Nat) : List (List Nat) → List (List Nat)
  | [] => [[c]]
  | t :: ts => (c :: t) :: ts

/-- Python `s.split(sep)` for a single-element separator: every occurrence
of the separator starts a new chunk, and the empty list splits to `[[]]`,
exactly as `"".split(" ") == ['']`. -/
def pySplit (sep : Nat) : List Nat → List (List Nat)
  | [] => [[]]
  | c :: rest => if c = sep then [] :: pySplit sep rest else consHead c (pySplit sep rest)

/-- Number of occurrences of `x` in a list of code points. -/
def countEq (x : Nat) : List Nat → Nat
  | [] => 0
  | c :: rest => (if c = x then 1 else 0) + countEq x rest

/-- Lowercase hexadecimal digit, as in CPython's `\xhh` escapes. -/
def hexDigit (n : Nat) : Nat := if n < 10 then 48 + n else 87 + n

/-- CPython `bytes.__repr__` escaping of one byte, given the chosen quote
delimiter `q`: the delimiter and backslash are backslash-escaped, tab,
newline and carriage return use their two-character escapes, other
non-printable bytes become `\xhh`, and printable bytes stand for
themselves. -/
def escapeByte (q c : Nat) : List Nat :=
  if c = q ∨ c = 92 then [92, c]
  else if c = 9 then [92, 116]
  else if c = 10 then [92, 110]
  else if c = 13 then [92, 114]
  else if c < 32 ∨ 126 < c then [92, 120, hexDigit (c / 16 % 16), hexDigit (c % 16)]
  else [c]

/-- CPython quote choice for `bytes.__repr__`: a single quote, unless the
bytes contain a single quote and no double quote. -/
def chooseQuote (bs : List Nat) : Nat := if 39 ∈ bs ∧ 34 ∉ bs then 34 else 39

/-- Python `str(b)` for a bytes object `b`: the repr `b<q>...<q>` with
escaped content. -/
def pyReprBytes (bs : List Nat) : List Nat :=
  let q := chooseQuote bs
  98 :: q :: ((bs.map (escapeByte q)).flatten ++ [q])

/-- The listener's `self._packet_values`: an insertion-ordered dictionary. -/
abbrev Dict : Type := List (List Nat × List Nat)

/-- Python `d[k] = v`: replace the value in place if the key is present,
otherwise append the new binding at the end. -/
def dictInsert (d : Dict) (k v : List Nat) : Dict :=
  match d with
  | [] => [(k, v)]
  | (k0, v0) :: rest =>
    if k0 = k then (k0, v) :: rest else (k0, v0) :: dictInsert rest k v

/-- Python `d[k]` as an option (first binding of the key). -/
def dictLookup (d : Dict) (k : List Nat) : Option (List Nat) :=
  match d with
  | [] => none
  | (k0, v0) :: rest => if k = k0 then some v0 else dictLookup rest k

/-- The keys of the dictionary, in order. -/
def dictKeys (d : Dict) : List (List Nat) := d.map Prod.fst

/-- Python dictionaries never hold a key twice. -/
def UniqueKeys (d : Dict) : Prop := (dictKeys d).Nodup

/-- Python `"b'" in key`. -/
def containsBQuote : List Nat → Bool
  | 98 :: 39 :: _ => true
  | _ :: rest => containsBQuote rest
  | [] => false

/-- Python `key.replace("b'", "")`: remove every non-overlapping
occurrence of the two code points `b` `'`, scanning left to right. -/
def stripBQuote : List Nat → List Nat
  | 98 :: 39 :: rest => stripBQuote rest
  | c :: rest => c :: stripBQuote rest
  | [] => []

/-- The key clean-up in `getDiscoveryPacket`:
`if "b'" in key: key = str(key.replace("b'", ""))`. -/
def processKey (k : List Nat) : List Nat :=
  if containsBQuote k then stripBQuote k else k

/-- The decoded record, translated from `FlexRadioDiscoveryPacket.__init__`:
fifteen attributes all initialised to `None`.  `assignValuesSlot` models the
instance attribute named `_assignValues` that `setattr` can create,
shadowing the method of the same name (`none` means the method is still
visible). -/
structure FlexRadioDiscoveryPacket where
  requires_additional_license : Option (List Nat)
  nickname : Option (List Nat)
  version : Option (List Nat)
  discovery_protocol_version : Option (List Nat)
  inuse_ip : Option (List Nat)
  model : Option (List Nat)
  max_licensed_version : Option (List Nat)
  serial : Option (List Nat)
  inuse_host : Option (List Nat)
  port : Option (List Nat)
  radio_license_id : Option (List Nat)
  ip : Option (List Nat)
  status : Option (List Nat)
  callsign : Option (List Nat)
  fpc_mac : Option (List Nat)
  assignValuesSlot : Option (List Nat)
  deriving DecidableEq

/-- The record right after the fifteen `self.x = None` assignments. -/
def emptyPacket : FlexRadioDiscoveryPacket :=
  ⟨none, none, none, none, none, none, none, none, none, none, none, none,
   none, none, none, none⟩

/-- Python `dir(self)` filtered by `not item.startswith("__")` inside
`_assignValues`: the fifteen instance attributes plus the method name
`_assignValues`, in sorted order. -/
def objVarList : List (List Nat) :=
  [pyStr "_assignValues", pyStr "callsign", pyStr "discovery_protocol_version",
   pyStr "fpc_mac", pyStr "inuse_host", pyStr "inuse_ip", pyStr "ip",
   pyStr "max_licensed_version", pyStr "model", pyStr "nickname", pyStr "port",
   pyStr "radio_license_id", pyStr "requires_additional_license", pyStr "serial",
   pyStr "status", pyStr "version"]

/-- Python `setattr(self, k, v)` for the attribute names that can reach it. -/
def setAttr (p : FlexRadioDiscoveryPacket) (k v : List Nat) : FlexRadioDiscoveryPacket :=
  if k = pyStr "requires_additional_license" then { p with requires_additional_license := some v }
  else if k = pyStr "nickname" then { p with nickname := some v }
  else if k = pyStr "version" then { p with version := some v }
  else if k = pyStr "discovery_protocol_version" then { p with discovery_protocol_version := some v }
  else if k = pyStr "inuse_ip" then { p with inuse_ip := some v }
  else if k = pyStr "model" then { p with model := some v }
  else if k = pyStr "max_licensed_version" then { p with max_licensed_version := some v }
  else if k = pyStr "serial" then { p with serial := some v }
  else if k = pyStr "inuse_host" then { p with inuse_host := some v }
  else if k = pyStr "port" then { p with port := some v }
  else if k = pyStr "radio_license_id" then { p with radio_license_id := some v }
  else if k = pyStr "ip" then { p with ip := some v }
  else if k = pyStr "status" then { p with status := some v }
  else if k = pyStr "callsign" then { p with callsign := some v }
  else if k = pyStr "fpc_mac" then { p with fpc_mac := some v }
  else if k = pyStr "_assignValues" then { p with assignValuesSlot := some v }
  else p

/-- `FlexRadioDiscoveryPacket._assignValues`: walk the dictionary in
insertion order; a key in `obj_var_list` is assigned with `setattr`, any
other pair is printed as a diagnostic (collected here as the second
component, in emission order). -/
def assignValues (p : FlexRadioDiscoveryPacket) (d : Dict) :
    FlexRadioDiscoveryPacket × List (List Nat × List Nat) :=
  match d with
  | [] => (p, [])
  | (k, v) :: rest =>
    if k ∈ objVarList then assignValues (setAttr p k v) rest
    else
      let r := assignValues p rest
      (r.1, (k, v) :: r.2)

/-- Result of the token loop: `ok` when every token unpacked into exactly
two parts, `err` when `item.split("=")` raised `ValueError`; either way the
dictionary mutations made before the outcome are kept. -/
inductive LoopResult where
  | ok (d : Dict)
  | err (d : Dict)
  deriving DecidableEq

/-- Whether the loop raised. -/
def LoopResult.isErr : LoopResult → Bool
  | .ok _ => false
  | .err _ => true

/-- The `for item in plist` loop of `getDiscoveryPacket`, threading the
listener's `self._packet_values`. -/
def processItems (items : List (List Nat)) (d : Dict) : LoopResult :=
  match items with
  | [] => .ok d
  | item :: rest =>
    match pySplit 61 item with
    | [k, v] => processItems rest (dictInsert d (processKey k) v)
    | _ => .err d

/-- The state-independent part of the token loop: the processed key/value
pairs, or `none` when some token does not unpack into two parts. -/
def parseItems : List (List Nat) → Option (List (List Nat × List Nat))
  | [] => some []
  | item :: rest =>
    match pySplit 61 item with
    | [k, v] => (parseItems rest).map (fun ps => (processKey k, v) :: ps)
    | _ => none

/-- Sequential dictionary insertion of a pair list. -/
def insertAll (ps : List (List Nat × List Nat)) (d : Dict) : Dict :=
  match ps with
  | [] => d
  | (k, v) :: rest => insertAll rest (dictInsert d k v)

/-- Value of the last occurrence of a key in a pair list, if any. -/
def lastVal (ps : List (List Nat × List Nat)) (k : List Nat) : Option (List Nat) :=
  match ps with
  | [] => none
  | (k0, v0) :: rest =>
    match lastVal rest k with
    | some v => some v
    | none => if k = k0 then some v0 else none

/-- The pairs of a dictionary whose key is not an attribute name of the
record: exactly the pairs `_assignValues` prints as diagnostics. -/
def unknownPairs (d : Dict) : List (List Nat × List Nat) :=
  d.filter (fun kv => !(decide (kv.1 ∈ objVarList)))

/-- What one `recvfrom` call can produce: a timeout or a datagram payload. -/
inductive RecvEvent where
  | timeout
  | datagram (payload : List Nat)

/-- Result of one `getDiscoveryPacket` call: `noPacket` is the `return
None` taken on socket timeout, `valueError` is the uncaught exception from
`item.split("=")` unpacking, `ok` carries the returned record together with
the unknown-field diagnostics printed while building it. -/
inductive Outcome where
  | noPacket
  | valueError
  | ok (p : FlexRadioDiscoveryPacket) (diags : List (List Nat × List Nat))
  deriving DecidableEq

/-- The token list `plist = str(packet[0][28:]).split(" ")`. -/
def itemsOf (payload : List Nat) : List (List Nat) :=
  pySplit 32 (pyReprBytes (payload.drop 28))

/-- The body of `getDiscoveryPacket` after a datagram arrived, paired with
the listener state it leaves behind. -/
def decodeDatagram (payload : List Nat) (st : Dict) : Outcome × Dict :=
  match processItems (itemsOf payload) st with
  | .err d => (.valueError, d)
  | .ok d => (.ok (assignValues emptyPacket d).1 (assignValues emptyPacket d).2, d)

/-- `FlexRadioDiscoveryListener.getDiscoveryPacket`: one receive attempt;
a timeout returns `None` and leaves the state alone, a datagram is decoded. -/
def getDiscoveryPacket (ev : RecvEvent) (st : Dict) : Outcome × Dict :=
  match ev with
  | .timeout => (.noPacket, st)
  | .datagram payload => decodeDatagram payload st

/-- Repeated calls to `getDiscoveryPacket`, one receive event per call,
starting from listener state `st` (`__init__` sets it to the empty dict). -/
def runCalls (evs : List RecvEvent) (st : Dict) : List Outcome × Dict :=
  match evs with
  | [] => ([], st)
  | ev :: rest =>
    ((getDiscoveryPacket ev st).1 :: (runCalls rest (getDiscoveryPacket ev st).2).1,
     (runCalls rest (getDiscoveryPacket ev st).2).2)

/-- The `model` field of the record returned by a call, if any. -/
def outcomeModel : Outcome → Option (List Nat)
  | .ok p _ => p.model
  | _ => none

/-- First-biased choice between two optional values; `orOpt (lastVal ps k)`
describes what a run of dictionary insertions leaves for key `k`. -/
def orOpt (a b : Option (List Nat)) : Option (List Nat) :=
  match a with
  | some v => some v
  | none => b

/-- Dictionary reached after decoding `foo=bar model=FLEX-6600` (used to
instantiate the C3 theorem). -/
def c3dict : Dict := [(pyStr "foo", pyStr "bar"), (pyStr "model", pyStr "FLEX-6600\x27")]

/-- Payload whose post-header text repeats the key `model` (used to
instantiate the C8 theorem). -/
def c8pay : List Nat := hdr28 ++ pyStr "model=AAA model=BBB serial=S"

/-- The processed key/value pairs of `c8pay`, in token order. -/
def c8pairs : List (List Nat × List Nat) :=
  [(pyStr "model", pyStr "AAA"), (pyStr "model", pyStr "BBB"),
   (pyStr "serial", pyStr "S\x27")]

/-- Payload used to instantiate the C9 idempotence theorem. -/
def c9pay : List Nat := hdr28 ++ pyStr "model=X"

/-- Dictionary reached after decoding `c9pay` on a fresh listener. -/
def c9dict : Dict := [(pyStr "model", pyStr "X\x27")]

theorem runCalls_length (evs : List RecvEvent) (st : Dict) :
    (runCalls evs st).1.length = evs.length := by
  induction evs generalizing st with
  | nil => rfl
  | cons ev rest ih => simp [runCalls, ih]

/-- C7: a receive timeout makes `getDiscoveryPacket` return the
distinguished `None` result (not an error) with the listener state
untouched, and every call consumes exactly one receive event — there is no
internal retry loop waiting for a well-formed packet. -/
theorem c7_timeout_single_attempt :
    (∀ st : Dict, getDiscoveryPacket RecvEvent.timeout st = (Outcome.noPacket, st)) ∧
    (∀ (evs : List RecvEvent) (st : Dict), (runCalls evs st).1.length = evs.length) :=
  ⟨fun _ => rfl, runCalls_length⟩

/-- C1: evaluation at the failing input.  The first datagram carries only
`model=FLEX-6600`, the second only `serial=1234`; because
`self._packet_values` is created once in `__init__` and never cleared, the
record returned for the second datagram still has its `model` field set
(to the first datagram's value, trailing-quote artifact included), even
though no `model` token appears in the second payload. -/
theorem c1_model_leaks_across_datagrams :
    (runCalls
        [RecvEvent.datagram (hdr28 ++ pyStr "model=FLEX-6600"),
         RecvEvent.datagram (hdr28 ++ pyStr "serial=1234")] []).1.map outcomeModel =
      [some (pyStr "FLEX-6600\x27"), some (pyStr "FLEX-6600\x27")] ∧
    (hdr28 ++ pyStr "serial=1234").drop 28 = pyStr "serial=1234" := by decide

/-- C2: evaluation at the specified payload.  Decoding
`b"\x00"*28 + b"model=FLEX-6600 serial=1234-5678 status=Available callsign=N0CALL"`
on a fresh listener leaves every unmentioned field `None` and emits no
unknown-field diagnostic, and `model`, `serial` and `status` are exact —
but `callsign` comes back as `N0CALL\x27`: the value of the final token
keeps the closing quote of the `str()` repr of the payload bytes, which
the code never strips. -/
theorem c2_trailing_quote_artifact :
    getDiscoveryPacket
        (RecvEvent.datagram (hdr28 ++
          pyStr "model=FLEX-6600 serial=1234-5678 status=Available callsign=N0CALL")) [] =
      (Outcome.ok
        { emptyPacket with
            model := some (pyStr "FLEX-6600"),
            serial := some (pyStr "1234-5678"),
            status := some (pyStr "Available"),
            callsign := some (pyStr "N0CALL\x27") } [],
       [(pyStr "model", pyStr "FLEX-6600"), (pyStr "serial", pyStr "1234-5678"),
        (pyStr "status", pyStr "Available"), (pyStr "callsign", pyStr "N0CALL\x27")]) := by
  decide

/-- C4: evaluation at the failing input.  The first datagram is malformed
(token `bad` has no `=`), so the call raises, but the `model=LEAKED`
binding inserted before the failure stays in `self._packet_values`; the
record returned for the following well-formed `serial=S` datagram then
carries `model = LEAKED`, a value originating from a token of the
malformed datagram. -/
theorem c4_state_mutated_by_failed_decode :
    runCalls
        [RecvEvent.datagram (hdr28 ++ pyStr "model=LEAKED bad"),
         RecvEvent.datagram (hdr28 ++ pyStr "serial=S")] [] =
      ([Outcome.valueError,
        Outcome.ok
          { emptyPacket with
              model := some (pyStr "LEAKED"), serial := some (pyStr "S\x27") } []],
       [(pyStr "model", pyStr "LEAKED"), (pyStr "serial", pyStr "S\x27")]) := by
  decide

/-- C10: the decoder's notion of a known key is `dir(self)` minus dunder
names, which contains the method name `_assignValues` besides the fifteen
schema fields.  A datagram token with key `_assignValues` is therefore
assigned with `setattr` — creating an instance attribute that shadows the
method — and is not reported as an unrecognized field (no diagnostic is
emitted). -/
theorem c10_assignValues_overwritten :
    getDiscoveryPacket (RecvEvent.datagram (hdr28 ++ pyStr "_assignValues=boom")) [] =
      (Outcome.ok { emptyPacket with assignValuesSlot := some (pyStr "boom\x27") } [],
       [(pyStr "_assignValues", pyStr "boom\x27")]) ∧
    pyStr "_assignValues" ∈ objVarList := by decide

/-- C3, counterexample: the payload below contains the token `foo=bar`,
whose key `foo` is not a known schema field, yet decode does not succeed —
the neighbouring token `nope` aborts it with `ValueError` (and the `foo`
binding is even left behind in the listener state). -/
theorem c3_counterexample :
    getDiscoveryPacket (RecvEvent.datagram (hdr28 ++ pyStr "foo=bar nope")) [] =
      (Outcome.valueError, [(pyStr "foo", pyStr "bar")]) := by decide

/-- C5, counterexample: a 33-byte payload (longer than the 28-byte header
skip) in which the only token, `a=b=c`, does contain `=` — so the payload
has neither defect named by the claim — still makes decode raise, because
`item.split("=")` yields three parts and the two-name unpacking fails. -/
theorem c5_counterexample :
    (getDiscoveryPacket (RecvEvent.datagram (hdr28 ++ pyStr "a=b=c")) []).1 =
      Outcome.valueError ∧
    (hdr28 ++ pyStr "a=b=c").length = 33 ∧
    (pySplit 32 ((hdr28 ++ pyStr "a=b=c").drop 28)).map (countEq 61) = [2] := by decide

/-- C6, counterexample: the payload's only token `model=a=b` contains
`=` (twice), and the claim says decode must not fail on such a token and
must split at the first `=`; instead `item.split("=")` produces three
parts and the decode raises `ValueError`. -/
theorem c6_counterexample :
    61 ∈ pyStr "model=a=b" ∧
    getDiscoveryPacket (RecvEvent.datagram (hdr28 ++ pyStr "model=a=b")) [] =
      (Outcome.valueError, []) := by decide

/-- C8, counterexample: the known key `model` appears in two tokens of the
payload below, and the claim says decode must not fail on any such
payload; but the third token `oops` lacks `=` and decode raises. -/
theorem c8_counterexample :
    (getDiscoveryPacket (RecvEvent.datagram (hdr28 ++ pyStr "model=a model=b oops")) []).1 =
      Outcome.valueError ∧
    (itemsOf (hdr28 ++ pyStr "model=a model=b oops")).map (fun t => (pySplit 61 t).headD []) =
      [pyStr "b\x27model", pyStr "model", pyStr "oops\x27"] := by decide

theorem consHead_ne_nil (c : Nat) (l : List (List Nat)) : consHead c l ≠ [] := by
  cases l <;> simp [consHead]

theorem pySplit_ne_nil (sep : Nat) (l : List Nat) : pySplit sep l ≠ [] := by
  cases l with
  | nil => simp [pySplit]
  | cons c rest =>
    by_cases h : c = sep <;> simp [pySplit, h, consHead_ne_nil]

theorem pySplit_no_sep (sep : Nat) (l : List Nat) (h : sep ∉ l) : pySplit sep l = [l] := by
  induction l with
  | nil => rfl
  | cons c rest ih =>
    have hc : ¬ c = sep := fun e => h (e ▸ List.mem_cons_self c rest)
    have hr : sep ∉ rest := fun m => h (List.mem_cons_of_mem c m)
    simp [pySplit, hc, ih hr, consHead]

theorem pySplit_append_of_not_mem (sep : Nat) (xs ys : List Nat) (hx : sep ∉ xs)
    (h : List Nat) (t : List (List Nat)) (hys : pySplit sep ys = h :: t) :
    pySplit sep (xs ++ ys) = (xs ++ h) :: t := by
  induction xs with
  | nil => simpa using hys
  | cons c rest ih =>
    have hc : ¬ c = sep := fun e => hx (e ▸ List.mem_cons_self c rest)
    have hr : sep ∉ rest := fun m => hx (List.mem_cons_of_mem c m)
    simp [pySplit, hc, ih hr, consHead]

theorem countEq_append (x : Nat) (a b : List Nat) :
    countEq x (a ++ b) = countEq x a + countEq x b := by
  induction a with
  | nil => simp [countEq]
  | cons c rest ih => simp [countEq, ih]; omega

theorem countEq_zero_of_not_mem (x : Nat) (l : List Nat) (h : x ∉ l) : countEq x l = 0 := by
  induction l with
  | nil => rfl
  | cons c rest ih =>
    have hc : ¬ c = x := fun e => h (e ▸ List.mem_cons_self c rest)
    have hr : x ∉ rest := fun m => h (List.mem_cons_of_mem c m)
    simp [countEq, hc, ih hr]

theorem hexDigit_ge (n : Nat) : 48 ≤ hexDigit n := by
  unfold hexDigit; split_ifs <;> omega

theorem hexDigit_ne_61 (n : Nat) : hexDigit n ≠ 61 := by
  unfold hexDigit; split_ifs <;> omega

theorem not_mem_escapeByte_32 (q c : Nat) (hc : c ≠ 32) : 32 ∉ escapeByte q c := by
  have g1 := hexDigit_ge (c / 16 % 16)
  have g2 := hexDigit_ge (c % 16)
  unfold escapeByte
  split_ifs <;> simp <;> omega

theorem escapeByte_32 (q : Nat) (hq : q = 39 ∨ q = 34) : escapeByte q 32 = [32] := by
  rcases hq with h | h <;> subst h <;> rfl

theorem countEq_escapeByte (q c : Nat) (hq : q = 39 ∨ q = 34) :
    countEq 61 (escapeByte q c) = if c = 61 then 1 else 0 := by
  by_cases hc : c = 61
  · subst hc
    have hq61 : (61 : Nat) ≠ q := by rcases hq with h | h <;> omega
    simp [escapeByte, hq61, countEq]
  · rw [if_neg hc]
    unfold escapeByte
    split_ifs <;> simp [countEq, hc, hexDigit_ne_61]

theorem pySplit_cons_ne (sep c : Nat) (l : List Nat) (hc : c ≠ sep) (h : List Nat)
    (t : List (List Nat)) (he : pySplit sep l = h :: t) :
    pySplit sep (c :: l) = (c :: h) :: t := by
  simp only [pySplit]
  rw [if_neg hc, he]
  rfl

theorem pySplit_cons_sep (sep : Nat) (l : List Nat) :
    pySplit sep (sep :: l) = [] :: pySplit sep l := by
  simp [pySplit]

theorem counts_escJoin (q : Nat) (hq : q = 39 ∨ q = 34) (bs suffix : List Nat)
    (hs32 : 32 ∉ suffix) (hs61 : 61 ∉ suffix) :
    (pySplit 32 ((bs.map (escapeByte q)).flatten ++ suffix)).map (countEq 61) =
      (pySplit 32 bs).map (countEq 61) := by
  induction bs with
  | nil =>
    simp [pySplit_no_sep 32 suffix hs32, pySplit,
      countEq_zero_of_not_mem 61 suffix hs61, countEq]
  | cons c bs ih =>
    by_cases hc : c = 32
    · subst hc
      have hL : (List.map (escapeByte q) (32 :: bs)).flatten ++ suffix =
          32 :: ((List.map (escapeByte q) bs).flatten ++ suffix) := by
        rw [List.map_cons, escapeByte_32 q hq, List.flatten_cons]
        simp
      rw [hL, pySplit_cons_sep, pySplit_cons_sep, List.map_cons, List.map_cons, ih]
    · rcases e : pySplit 32 ((bs.map (escapeByte q)).flatten ++ suffix) with _ | ⟨h, t⟩
      · exact absurd e (pySplit_ne_nil _ _)
      · rcases e2 : pySplit 32 bs with _ | ⟨h2, t2⟩
        · exact absurd e2 (pySplit_ne_nil _ _)
        · have hL : (List.map (escapeByte q) (c :: bs)).flatten ++ suffix =
              escapeByte q c ++ ((List.map (escapeByte q) bs).flatten ++ suffix) := by
            rw [List.map_cons, List.flatten_cons, List.append_assoc]
          rw [hL, pySplit_append_of_not_mem 32 (escapeByte q c) _
            (not_mem_escapeByte_32 q c hc) h t e]
          rw [pySplit_cons_ne 32 c bs hc h2 t2 e2]
          have ihe := ih
          rw [e, e2] at ihe
          simp only [List.map_cons, List.cons.injEq] at ihe ⊢
          refine ⟨?_, ihe.2⟩
          rw [countEq_append, countEq_escapeByte q c hq, ihe.1]
          simp [countEq]

theorem chooseQuote_cases (bs : List Nat) : chooseQuote bs = 39 ∨ chooseQuote bs = 34 := by
  unfold chooseQuote; split_ifs <;> simp

theorem counts_itemsOf (payload : List Nat) :
    (itemsOf payload).map (countEq 61) =
      (pySplit 32 (payload.drop 28)).map (countEq 61) := by
  have hq := chooseQuote_cases (payload.drop 28)
  have hq32 : chooseQuote (payload.drop 28) ≠ 32 := by rcases hq with h | h <;> omega
  have hq61 : chooseQuote (payload.drop 28) ≠ 61 := by rcases hq with h | h <;> omega
  have h98 : (98 : Nat) ≠ 32 := by omega
  rcases e : pySplit 32
      (((payload.drop 28).map (escapeByte (chooseQuote (payload.drop 28)))).flatten ++
        [chooseQuote (payload.drop 28)]) with _ | ⟨h, t⟩
  · exact absurd e (pySplit_ne_nil _ _)
  · have e1 := pySplit_cons_ne 32 (chooseQuote (payload.drop 28)) _ hq32 h t e
    have e2 := pySplit_cons_ne 32 98 _ h98 _ _ e1
    have hitems : itemsOf payload = (98 :: chooseQuote (payload.drop 28) :: h) :: t := by
      unfold itemsOf pyReprBytes
      exact e2
    rw [hitems]
    have hmain := counts_escJoin _ hq (payload.drop 28) [chooseQuote (payload.drop 28)]
      (by simp [Ne.symm hq32]) (by simp [Ne.symm hq61])
    rw [e] at hmain
    rcases e3 : pySplit 32 (payload.drop 28) with _ | ⟨h2, t2⟩
    · exact absurd e3 (pySplit_ne_nil _ _)
    · rw [e3] at hmain
      simp only [List.map_cons, List.cons.injEq] at hmain ⊢
      refine ⟨?_, hmain.2⟩
      rw [← hmain.1]
      simp [countEq, hq61]

theorem consHead_length (c : Nat) (l : List (List Nat)) (h : l ≠ []) :
    (consHead c l).length = l.length := by
  cases l with
  | nil => exact absurd rfl h
  | cons a t => rfl

theorem pySplit_length (sep : Nat) (l : List Nat) :
    (pySplit sep l).length = countEq sep l + 1 := by
  induction l with
  | nil => rfl
  | cons c rest ih =>
    by_cases hc : c = sep
    · subst hc
      simp [pySplit, countEq, ih]
      omega
    · simp [pySplit, hc, countEq, consHead_length _ _ (pySplit_ne_nil sep rest), ih]

theorem processItems_err_iff (items : List (List Nat)) (d : Dict) :
    (processItems items d).isErr = true ↔ ∃ item ∈ items, (pySplit 61 item).length ≠ 2 := by
  induction items generalizing d with
  | nil => simp [processItems, LoopResult.isErr]
  | cons item rest ih =>
    rcases e : pySplit 61 item with _ | ⟨k, _ | ⟨v, _ | ⟨x, xs⟩⟩⟩
    · constructor
      · intro _; exact ⟨item, List.mem_cons_self _ _, by rw [e]; simp⟩
      · intro _; simp [processItems, e, LoopResult.isErr]
    · constructor
      · intro _; exact ⟨item, List.mem_cons_self _ _, by rw [e]; simp⟩
      · intro _; simp [processItems, e, LoopResult.isErr]
    · have hred : processItems (item :: rest) d =
          processItems rest (dictInsert d (processKey k) v) := by
        simp [processItems, e]
      rw [hred, ih]
      constructor
      · rintro ⟨x, hx, hne⟩
        exact ⟨x, List.mem_cons_of_mem _ hx, hne⟩
      · rintro ⟨x, hx, hne⟩
        rcases List.mem_cons.1 hx with he | hm
        · subst he
          rw [e] at hne
          simp at hne
        · exact ⟨x, hm, hne⟩
    · constructor
      · intro _; exact ⟨item, List.mem_cons_self _ _, by rw [e]; simp⟩
      · intro _; simp [processItems, e, LoopResult.isErr]

theorem decode_err_iff (payload : List Nat) (st : Dict) :
    (getDiscoveryPacket (RecvEvent.datagram payload) st).1 = Outcome.valueError ↔
      (processItems (itemsOf payload) st).isErr = true := by
  show (decodeDatagram payload st).1 = Outcome.valueError ↔ _
  unfold decodeDatagram
  rcases e : processItems (itemsOf payload) st with d | d <;>
    simp [e, LoopResult.isErr]

theorem exists_ne_one_of_counts {l1 l2 : List (List Nat)}
    (h : l1.map (countEq 61) = l2.map (countEq 61)) (x : List Nat) (hx : x ∈ l1)
    (hne : countEq 61 x ≠ 1) : ∃ y ∈ l2, countEq 61 y ≠ 1 := by
  have hm : countEq 61 x ∈ l2.map (countEq 61) := h ▸ List.mem_map_of_mem _ hx
  rcases List.mem_map.1 hm with ⟨y, hy, he⟩
  exact ⟨y, hy, by rw [he]; exact hne⟩

/-- C5, amended: decode signals the unpacking failure (`ValueError`)
exactly when some space-separated token of the post-header bytes does not
contain exactly one `=` byte.  Payloads shorter than (or equal to) the
28-byte header skip always fail — their empty post-header content is one
token with no `=` — and a token lacking `=` fails as the claim states, but
a token with two or more `=` also fails, which the claim's "no such
defect" clause wrongly excludes. -/
theorem c5_amended (payload : List Nat) (st : Dict) :
    (getDiscoveryPacket (RecvEvent.datagram payload) st).1 = Outcome.valueError ↔
      ∃ tok ∈ pySplit 32 (payload.drop 28), countEq 61 tok ≠ 1 := by
  rw [decode_err_iff, processItems_err_iff]
  have hcounts := counts_itemsOf payload
  constructor
  · rintro ⟨item, hitem, hlen⟩
    refine exists_ne_one_of_counts hcounts item hitem ?_
    intro h1
    rw [pySplit_length, h1] at hlen
    exact hlen rfl
  · rintro ⟨tok, htok, hne⟩
    rcases exists_ne_one_of_counts hcounts.symm tok htok hne with ⟨item, hitem, hine⟩
    refine ⟨item, hitem, ?_⟩
    rw [pySplit_length]
    omega

theorem pySplit_eq_pair (sep : Nat) (k v : List Nat) (hk : sep ∉ k) (hv : sep ∉ v) :
    pySplit sep (k ++ sep :: v) = [k, v] := by
  have h1 : pySplit sep (sep :: v) = [] :: pySplit sep v := pySplit_cons_sep sep v
  rw [pySplit_no_sep sep v hv] at h1
  have := pySplit_append_of_not_mem sep k (sep :: v) hk [] [v] h1
  simpa using this

/-- C6, amended: a token consisting of a key and a value joined by a
single `=` (neither side containing `=`) is split there — the key is the
text before, the value the text after — and the token loop does not fail
on it; a token with two or more `=` characters instead aborts the decode,
so a value can never itself contain `=`. -/
theorem c6_amended (k v : List Nat) (rest : List (List Nat)) (st : Dict)
    (hk : 61 ∉ k) (hv : 61 ∉ v) :
    processItems ((k ++ 61 :: v) :: rest) st =
      processItems rest (dictInsert st (processKey k) v) := by
  simp [processItems, pySplit_eq_pair 61 k v hk hv]

theorem c6_amended_witness :
    ((61 : Nat) ∉ pyStr "model") ∧ ((61 : Nat) ∉ pyStr "X") ∧
    processItems ((pyStr "model" ++ 61 :: pyStr "X") :: []) [] =
      processItems [] (dictInsert [] (processKey (pyStr "model")) (pyStr "X")) :=
  ⟨by decide, by decide,
   c6_amended (pyStr "model") (pyStr "X") [] [] (by decide) (by decide)⟩

theorem dictKeys_cons (k0 v0 : List Nat) (rest : Dict) :
    dictKeys ((k0, v0) :: rest) = k0 :: dictKeys rest := rfl

theorem assignValues_diags (d : Dict) :
    ∀ p : FlexRadioDiscoveryPacket, (assignValues p d).2 = unknownPairs d := by
  induction d with
  | nil => intro p; rfl
  | cons kv rest ih =>
    rcases kv with ⟨k, v⟩
    intro p
    by_cases h : k ∈ objVarList
    · simp [assignValues, h, unknownPairs, List.filter_cons, ih]
    · simp [assignValues, h, unknownPairs, List.filter_cons, ih]

theorem decode_ok_inv (payload : List Nat) (st : Dict) (p : FlexRadioDiscoveryPacket)
    (g : List (List Nat × List Nat)) (st2 : Dict)
    (h : getDiscoveryPacket (RecvEvent.datagram payload) st = (Outcome.ok p g, st2)) :
    processItems (itemsOf payload) st = LoopResult.ok st2 ∧
      p = (assignValues emptyPacket st2).1 ∧ g = (assignValues emptyPacket st2).2 := by
  have h2 : decodeDatagram payload st = (Outcome.ok p g, st2) := h
  unfold decodeDatagram at h2
  rcases e : processItems (itemsOf payload) st with d | d <;> rw [e] at h2
  · simp only [Prod.mk.injEq, Outcome.ok.injEq] at h2
    rcases h2 with ⟨⟨hp, hg⟩, hd⟩
    subst hd
    exact ⟨rfl, hp.symm, hg.symm⟩
  · simp at h2

/-- C3, amended: decode can fail even though an unknown-key token is
present (see the counterexample), and the unrecognized pairs are not
exposed on the record — the code only prints them.  What holds: whenever a
call returns a record, the diagnostics printed while building it are
exactly the entries of the listener's accumulated dictionary (which may
include pairs from earlier datagrams) whose key is not one of the record's
sixteen non-dunder attribute names (the fifteen schema fields plus
`_assignValues`), in dictionary order, a repeated key having been collapsed
to its most recent value. -/
theorem c3_amended (payload : List Nat) (st : Dict) (p : FlexRadioDiscoveryPacket)
    (g : List (List Nat × List Nat)) (st2 : Dict)
    (h : getDiscoveryPacket (RecvEvent.datagram payload) st = (Outcome.ok p g, st2)) :
    g = unknownPairs st2 := by
  rcases decode_ok_inv payload st p g st2 h with ⟨_, _, hg⟩
  rw [hg, assignValues_diags]

theorem c3_amended_witness :
    getDiscoveryPacket (RecvEvent.datagram (hdr28 ++ pyStr "foo=bar model=FLEX-6600")) [] =
      (Outcome.ok (assignValues emptyPacket c3dict).1 (assignValues emptyPacket c3dict).2,
        c3dict) ∧
    (assignValues emptyPacket c3dict).2 = unknownPairs c3dict :=
  ⟨by decide,
   c3_amended (hdr28 ++ pyStr "foo=bar model=FLEX-6600") []
     (assignValues emptyPacket c3dict).1 (assignValues emptyPacket c3dict).2 c3dict
     (by decide)⟩

theorem setAttr_model_self (p : FlexRadioDiscoveryPacket) (v : List Nat) :
    (setAttr p (pyStr "model") v).model = some v := by
  unfold setAttr
  rw [if_neg (by decide : ¬ pyStr "model" = pyStr "requires_additional_license"),
      if_neg (by decide : ¬ pyStr "model" = pyStr "nickname"),
      if_neg (by decide : ¬ pyStr "model" = pyStr "version"),
      if_neg (by decide : ¬ pyStr "model" = pyStr "discovery_protocol_version"),
      if_neg (by decide : ¬ pyStr "model" = pyStr "inuse_ip"),
      if_pos (rfl : pyStr "model" = pyStr "model")]

theorem setAttr_keep_requires_additional_license (p : FlexRadioDiscoveryPacket) (v : List Nat) :
    (setAttr p (pyStr "requires_additional_license") v).model = p.model := by
  unfold setAttr
  rw [if_pos (rfl : pyStr "requires_additional_license" = pyStr "requires_additional_license")]

theorem setAttr_keep_nickname (p : FlexRadioDiscoveryPacket) (v : List Nat) :
    (setAttr p (pyStr "nickname") v).model = p.model := by
  unfold setAttr
  rw [if_neg (by decide : ¬ pyStr "nickname" = pyStr "requires_additional_license"),
      if_pos (rfl : pyStr "nickname" = pyStr "nickname")]

theorem setAttr_keep_version (p : FlexRadioDiscoveryPacket) (v : List Nat) :
    (setAttr p (pyStr "version") v).model = p.model := by
  unfold setAttr
  rw [if_neg (by decide : ¬ pyStr "version" = pyStr "requires_additional_license"),
      if_neg (by decide : ¬ pyStr "version" = pyStr "nickname"),
      if_pos (rfl : pyStr "version" = pyStr "version")]

theorem setAttr_keep_discovery_protocol_version (p : FlexRadioDiscoveryPacket) (v : List Nat) :
    (setAttr p (pyStr "discovery_protocol_version") v).model = p.model := by
  unfold setAttr
  rw [if_neg (by decide : ¬ pyStr "discovery_protocol_version" = pyStr "requires_additional_license"),
      if_neg (by decide : ¬ pyStr "discovery_protocol_version" = pyStr "nickname"),
      if_neg (by decide : ¬ pyStr "discovery_protocol_version" = pyStr "version"),
      if_pos (rfl : pyStr "discovery_protocol_version" = pyStr "discovery_protocol_version")]

theorem setAttr_keep_inuse_ip (p : FlexRadioDiscoveryPacket) (v : List Nat) :
    (setAttr p (pyStr "inuse_ip") v).model = p.model := by
  unfold setAttr
  rw [if_neg (by decide : ¬ pyStr "inuse_ip" = pyStr "requires_additional_license"),
      if_neg (by decide : ¬ pyStr "inuse_ip" = pyStr "nickname"),
      if_neg (by decide : ¬ pyStr "inuse_ip" = pyStr "version"),
      if_neg (by decide : ¬ pyStr "inuse_ip" = pyStr "discovery_protocol_version"),
      if_pos (rfl : pyStr "inuse_ip" = pyStr "inuse_ip")]

theorem setAttr_keep_max_licensed_version (p : FlexRadioDiscoveryPacket) (v : List Nat) :
    (setAttr p (pyStr "max_licensed_version") v).model = p.model := by
  unfold setAttr
  rw [if_neg (by decide : ¬ pyStr "max_licensed_version" = pyStr "requires_additional_license"),
      if_neg (by decide : ¬ pyStr "max_licensed_version" = pyStr "nickname"),
      if_neg (by decide : ¬ pyStr "max_licensed_version" = pyStr "version"),
      if_neg (by decide : ¬ pyStr "max_licensed_version" = pyStr "discovery_protocol_version"),
      if_neg (by decide : ¬ pyStr "max_licensed_version" = pyStr "inuse_ip"),
      if_neg (by decide : ¬ pyStr "max_licensed_version" = pyStr "model"),
      if_pos (rfl : pyStr "max_licensed_version" = pyStr "max_licensed_version")]

theorem setAttr_keep_serial (p : FlexRadioDiscoveryPacket) (v : List Nat) :
    (setAttr p (pyStr "serial") v).model = p.model := by
  unfold setAttr
  rw [if_neg (by decide : ¬ pyStr "serial" = pyStr "requires_additional_license"),
      if_neg (by decide : ¬ pyStr "serial" = pyStr "nickname"),
      if_neg (by decide : ¬ pyStr "serial" = pyStr "version"),
      if_neg (by decide : ¬ pyStr "serial" = pyStr "discovery_protocol_version"),
      if_neg (by decide : ¬ pyStr "serial" = pyStr "inuse_ip"),
      if_neg (by decide : ¬ pyStr "serial" = pyStr "model"),
      if_neg (by decide : ¬ pyStr "serial" = pyStr "max_licensed_version"),
      if_pos (rfl : pyStr "serial" = pyStr "serial")]

theorem setAttr_keep_inuse_host (p : FlexRadioDiscoveryPacket) (v : List Nat) :
    (setAttr p (pyStr "inuse_host") v).model = p.model := by
  unfold setAttr
  rw [if_neg (by decide : ¬ pyStr "inuse_host" = pyStr "requires_additional_license"),
      if_neg (by decide : ¬ pyStr "inuse_host" = pyStr "nickname"),
      if_neg (by decide : ¬ pyStr "inuse_host" = pyStr "version"),
      if_neg (by decide : ¬ pyStr "inuse_host" = pyStr "discovery_protocol_version"),
      if_neg (by decide : ¬ pyStr "inuse_host" = pyStr "inuse_ip"),
      if_neg (by decide : ¬ pyStr "inuse_host" = pyStr "model"),
      if_neg (by decide : ¬ pyStr "inuse_host" = pyStr "max_licensed_version"),
      if_neg (by decide : ¬ pyStr "inuse_host" = pyStr "serial"),
      if_pos (rfl : pyStr "inuse_host" = pyStr "inuse_host")]

theorem setAttr_keep_port (p : FlexRadioDiscoveryPacket) (v : List Nat) :
    (setAttr p (pyStr "port") v).model = p.model := by
  unfold setAttr
  rw [if_neg (by decide : ¬ pyStr "port" = pyStr "requires_additional_license"),
      if_neg (by decide : ¬ pyStr "port" = pyStr "nickname"),
      if_neg (by decide : ¬ pyStr "port" = pyStr "version"),
      if_neg (by decide : ¬ pyStr "port" = pyStr "discovery_protocol_version"),
      if_neg (by decide : ¬ pyStr "port" = pyStr "inuse_ip"),
      if_neg (by decide : ¬ pyStr "port" = pyStr "model"),
      if_neg (by decide : ¬ pyStr "port" = pyStr "max_licensed_version"),
      if_neg (by decide : ¬ pyStr "port" = pyStr "serial"),
      if_neg (by decide : ¬ pyStr "port" = pyStr "inuse_host"),
      if_pos (rfl : pyStr "port" = pyStr "port")]

theorem setAttr_keep_radio_license_id (p : FlexRadioDiscoveryPacket) (v : List Nat) :
    (setAttr p (pyStr "radio_license_id") v).model = p.model := by
  unfold setAttr
  rw [if_neg (by decide : ¬ pyStr "radio_license_id" = pyStr "requires_additional_license"),
      if_neg (by decide : ¬ pyStr "radio_license_id" = pyStr "nickname"),
      if_neg (by decide : ¬ pyStr "radio_license_id" = pyStr "version"),
      if_neg (by decide : ¬ pyStr "radio_license_id" = pyStr "discovery_protocol_version"),
      if_neg (by decide : ¬ pyStr "radio_license_id" = pyStr "inuse_ip"),
      if_neg (by decide : ¬ pyStr "radio_license_id" = pyStr "model"),
      if_neg (by decide : ¬ pyStr "radio_license_id" = pyStr "max_licensed_version"),
      if_neg (by decide : ¬ pyStr "radio_license_id" = pyStr "serial"),
      if_neg (by decide : ¬ pyStr "radio_license_id" = pyStr "inuse_host"),
      if_neg (by decide : ¬ pyStr "radio_license_id" = pyStr "port"),
      if_pos (rfl : pyStr "radio_license_id" = pyStr "radio_license_id")]

theorem setAttr_keep_ip (p : FlexRadioDiscoveryPacket) (v : List Nat) :
    (setAttr p (pyStr "ip") v).model = p.model := by
  unfold setAttr
  rw [if_neg (by decide : ¬ pyStr "ip" = pyStr "requires_additional_license"),
      if_neg (by decide : ¬ pyStr "ip" = pyStr "nickname"),
      if_neg (by decide : ¬ pyStr "ip" = pyStr "version"),
      if_neg (by decide : ¬ pyStr "ip" = pyStr "discovery_protocol_version"),
      if_neg (by decide : ¬ pyStr "ip" = pyStr "inuse_ip"),
      if_neg (by decide : ¬ pyStr "ip" = pyStr "model"),
      if_neg (by decide : ¬ pyStr "ip" = pyStr "max_licensed_version"),
      if_neg (by decide : ¬ pyStr "ip" = pyStr "serial"),
      if_neg (by decide : ¬ pyStr "ip" = pyStr "inuse_host"),
      if_neg (by decide : ¬ pyStr "ip" = pyStr "port"),
      if_neg (by decide : ¬ pyStr "ip" = pyStr "radio_license_id"),
      if_pos (rfl : pyStr "ip" = pyStr "ip")]

theorem setAttr_keep_status (p : FlexRadioDiscoveryPacket) (v : List Nat) :
    (setAttr p (pyStr "status") v).model = p.model := by
  unfold setAttr
  rw [if_neg (by decide : ¬ pyStr "status" = pyStr "requires_additional_license"),
      if_neg (by decide : ¬ pyStr "status" = pyStr "nickname"),
      if_neg (by decide : ¬ pyStr "status" = pyStr "version"),
      if_neg (by decide : ¬ pyStr "status" = pyStr "discovery_protocol_version"),
      if_neg (by decide : ¬ pyStr "status" = pyStr "inuse_ip"),
      if_neg (by decide : ¬ pyStr "status" = pyStr "model"),
      if_neg (by decide : ¬ pyStr "status" = pyStr "max_licensed_version"),
      if_neg (by decide : ¬ pyStr "status" = pyStr "serial"),
      if_neg (by decide : ¬ pyStr "status" = pyStr "inuse_host"),
      if_neg (by decide : ¬ pyStr "status" = pyStr "port"),
      if_neg (by decide : ¬ pyStr "status" = pyStr "radio_license_id"),
      if_neg (by decide : ¬ pyStr "status" = pyStr "ip"),
      if_pos (rfl : pyStr "status" = pyStr "status")]

theorem setAttr_keep_callsign (p : FlexRadioDiscoveryPacket) (v : List Nat) :
    (setAttr p (pyStr "callsign") v).model = p.model := by
  unfold setAttr
  rw [if_neg (by decide : ¬ pyStr "callsign" = pyStr "requires_additional_license"),
      if_neg (by decide : ¬ pyStr "callsign" = pyStr "nickname"),
      if_neg (by decide : ¬ pyStr "callsign" = pyStr "version"),
      if_neg (by decide : ¬ pyStr "callsign" = pyStr "discovery_protocol_version"),
      if_neg (by decide : ¬ pyStr "callsign" = pyStr "inuse_ip"),
      if_neg (by decide : ¬ pyStr "callsign" = pyStr "model"),
      if_neg (by decide : ¬ pyStr "callsign" = pyStr "max_licensed_version"),
      if_neg (by decide : ¬ pyStr "callsign" = pyStr "serial"),
      if_neg (by decide : ¬ pyStr "callsign" = pyStr "inuse_host"),
      if_neg (by decide : ¬ pyStr "callsign" = pyStr "port"),
      if_neg (by decide : ¬ pyStr "callsign" = pyStr "radio_license_id"),
      if_neg (by decide : ¬ pyStr "callsign" = pyStr "ip"),
      if_neg (by decide : ¬ pyStr "callsign" = pyStr "status"),
      if_pos (rfl : pyStr "callsign" = pyStr "callsign")]

theorem setAttr_keep_fpc_mac (p : FlexRadioDiscoveryPacket) (v : List Nat) :
    (setAttr p (pyStr "fpc_mac") v).model = p.model := by
  unfold setAttr
  rw [if_neg (by decide : ¬ pyStr "fpc_mac" = pyStr "requires_additional_license"),
      if_neg (by decide : ¬ pyStr "fpc_mac" = pyStr "nickname"),
      if_neg (by decide : ¬ pyStr "fpc_mac" = pyStr "version"),
      if_neg (by decide : ¬ pyStr "fpc_mac" = pyStr "discovery_protocol_version"),
      if_neg (by decide : ¬ pyStr "fpc_mac" = pyStr "inuse_ip"),
      if_neg (by decide : ¬ pyStr "fpc_mac" = pyStr "model"),
      if_neg (by decide : ¬ pyStr "fpc_mac" = pyStr "max_licensed_version"),
      if_neg (by decide : ¬ pyStr "fpc_mac" = pyStr "serial"),
      if_neg (by decide : ¬ pyStr "fpc_mac" = pyStr "inuse_host"),
      if_neg (by decide : ¬ pyStr "fpc_mac" = pyStr "port"),
      if_neg (by decide : ¬ pyStr "fpc_mac" = pyStr "radio_license_id"),
      if_neg (by decide : ¬ pyStr "fpc_mac" = pyStr "ip"),
      if_neg (by decide : ¬ pyStr "fpc_mac" = pyStr "status"),
      if_neg (by decide : ¬ pyStr "fpc_mac" = pyStr "callsign"),
      if_pos (rfl : pyStr "fpc_mac" = pyStr "fpc_mac")]

theorem setAttr_keep_assignValues (p : FlexRadioDiscoveryPacket) (v : List Nat) :
    (setAttr p (pyStr "_assignValues") v).model = p.model := by
  unfold setAttr
  rw [if_neg (by decide : ¬ pyStr "_assignValues" = pyStr "requires_additional_license"),
      if_neg (by decide : ¬ pyStr "_assignValues" = pyStr "nickname"),
      if_neg (by decide : ¬ pyStr "_assignValues" = pyStr "version"),
      if_neg (by decide : ¬ pyStr "_assignValues" = pyStr "discovery_protocol_version"),
      if_neg (by decide : ¬ pyStr "_assignValues" = pyStr "inuse_ip"),
      if_neg (by decide : ¬ pyStr "_assignValues" = pyStr "model"),
      if_neg (by decide : ¬ pyStr "_assignValues" = pyStr "max_licensed_version"),
      if_neg (by decide : ¬ pyStr "_assignValues" = pyStr "serial"),
      if_neg (by decide : ¬ pyStr "_assignValues" = pyStr "inuse_host"),
      if_neg (by decide : ¬ pyStr "_assignValues" = pyStr "port"),
      if_neg (by decide : ¬ pyStr "_assignValues" = pyStr "radio_license_id"),
      if_neg (by decide : ¬ pyStr "_assignValues" = pyStr "ip"),
      if_neg (by decide : ¬ pyStr "_assignValues" = pyStr "status"),
      if_neg (by decide : ¬ pyStr "_assignValues" = pyStr "callsign"),
      if_neg (by decide : ¬ pyStr "_assignValues" = pyStr "fpc_mac"),
      if_pos (rfl : pyStr "_assignValues" = pyStr "_assignValues")]

theorem setAttr_model_ne (p : FlexRadioDiscoveryPacket) (k v : List Nat)
    (hobj : k ∈ objVarList) (hk : k ≠ pyStr "model") :
    (setAttr p k v).model = p.model := by
  simp only [objVarList, List.mem_cons, List.not_mem_nil, or_false] at hobj
  rcases hobj with h|h|h|h|h|h|h|h|h|h|h|h|h|h|h|h
  · subst h; exact setAttr_keep_assignValues p v
  · subst h; exact setAttr_keep_callsign p v
  · subst h; exact setAttr_keep_discovery_protocol_version p v
  · subst h; exact setAttr_keep_fpc_mac p v
  · subst h; exact setAttr_keep_inuse_host p v
  · subst h; exact setAttr_keep_inuse_ip p v
  · subst h; exact setAttr_keep_ip p v
  · subst h; exact setAttr_keep_max_licensed_version p v
  · exact absurd h hk
  · subst h; exact setAttr_keep_nickname p v
  · subst h; exact setAttr_keep_port p v
  · subst h; exact setAttr_keep_radio_license_id p v
  · subst h; exact setAttr_keep_requires_additional_license p v
  · subst h; exact setAttr_keep_serial p v
  · subst h; exact setAttr_keep_status p v
  · subst h; exact setAttr_keep_version p v


theorem assignValues_model_not_mem (d : Dict) :
    ∀ p : FlexRadioDiscoveryPacket, pyStr "model" ∉ dictKeys d →
      (assignValues p d).1.model = p.model := by
  induction d with
  | nil => intro p _; rfl
  | cons kv rest ih =>
    rcases kv with ⟨k, v⟩
    intro p h
    rw [dictKeys_cons] at h
    have hk : k ≠ pyStr "model" := by
      intro e
      exact h (by rw [e]; exact List.mem_cons_self _ _)
    have hrest : pyStr "model" ∉ dictKeys rest :=
      fun m => h (List.mem_cons_of_mem _ m)
    by_cases hm : k ∈ objVarList
    · simp [assignValues, hm, ih _ hrest, setAttr_model_ne p k v hm hk]
    · simp [assignValues, hm, ih _ hrest]

theorem assignValues_model_mem (v : List Nat) (d : Dict) :
    ∀ p : FlexRadioDiscoveryPacket, UniqueKeys d → (pyStr "model", v) ∈ d →
      (assignValues p d).1.model = some v := by
  induction d with
  | nil => intro p _ hm; simp at hm
  | cons kv rest ih =>
    rcases kv with ⟨k, w⟩
    intro p hu hm
    have hu2 : k ∉ dictKeys rest ∧ UniqueKeys rest := by
      rw [UniqueKeys, dictKeys_cons] at hu
      exact List.nodup_cons.mp hu
    rcases List.mem_cons.mp hm with he | ht
    · have hk : k = pyStr "model" := (congrArg Prod.fst he).symm
      have hw : w = v := (congrArg Prod.snd he).symm
      subst hk
      subst hw
      have hobj : pyStr "model" ∈ objVarList := by decide
      simp only [assignValues, if_pos hobj]
      rw [assignValues_model_not_mem rest _ hu2.1, setAttr_model_self]
    · by_cases hobj : k ∈ objVarList
      · simp only [assignValues, if_pos hobj]
        exact ih _ hu2.2 ht
      · simp only [assignValues, if_neg hobj]
        exact ih _ hu2.2 ht

theorem processItems_of_parse (items : List (List Nat)) :
    ∀ ps : List (List Nat × List Nat), parseItems items = some ps →
      ∀ d : Dict, processItems items d = LoopResult.ok (insertAll ps d) := by
  induction items with
  | nil =>
    intro ps hp d
    simp [parseItems] at hp
    subst hp
    rfl
  | cons item rest ih =>
    intro ps hp d
    rcases e : pySplit 61 item with _ | ⟨k, rest2⟩
    · simp [parseItems, e] at hp
    · rcases rest2 with _ | ⟨v, rest3⟩
      · simp [parseItems, e] at hp
      · rcases rest3 with _ | ⟨x, xs⟩
        · simp only [parseItems, e] at hp
          rcases Option.map_eq_some'.mp hp with ⟨ps0, hps0, hcons⟩
          subst hcons
          simp only [processItems, e]
          rw [ih ps0 hps0]
          rfl
        · simp [parseItems, e] at hp

theorem processItems_ok_parse (items : List (List Nat)) :
    ∀ d d2 : Dict, processItems items d = LoopResult.ok d2 →
      ∃ ps, parseItems items = some ps ∧ d2 = insertAll ps d := by
  induction items with
  | nil =>
    intro d d2 h
    refine ⟨[], rfl, ?_⟩
    have hd : d = d2 := by simpa [processItems] using h
    simp [insertAll, hd]
  | cons item rest ih =>
    intro d d2 h
    rcases e : pySplit 61 item with _ | ⟨k, rest2⟩
    · simp [processItems, e] at h
    · rcases rest2 with _ | ⟨v, rest3⟩
      · simp [processItems, e] at h
      · rcases rest3 with _ | ⟨x, xs⟩
        · simp only [processItems, e] at h
          rcases ih _ _ h with ⟨ps0, hps0, hd2⟩
          refine ⟨(processKey k, v) :: ps0, ?_, ?_⟩
          · simp [parseItems, e, hps0]
          · simpa [insertAll] using hd2
        · simp [processItems, e] at h

theorem lookup_dictInsert (d : Dict) (k v k2 : List Nat) :
    dictLookup (dictInsert d k v) k2 = if k2 = k then some v else dictLookup d k2 := by
  induction d with
  | nil => simp [dictInsert, dictLookup]
  | cons kv rest ih =>
    rcases kv with ⟨k0, v0⟩
    by_cases h : k0 = k
    · subst h
      by_cases h2 : k2 = k0 <;> simp [dictInsert, dictLookup, h2]
    · by_cases h2 : k2 = k0
      · have h3 : k2 ≠ k := by rw [h2]; exact h
        simp [dictInsert, h, dictLookup, h2, h3]
      · simp [dictInsert, h, dictLookup, h2, ih]

theorem lookup_insertAll (ps : List (List Nat × List Nat)) :
    ∀ (d : Dict) (k : List Nat),
      dictLookup (insertAll ps d) k = orOpt (lastVal ps k) (dictLookup d k) := by
  induction ps with
  | nil => intro d k; rfl
  | cons kv rest ih =>
    rcases kv with ⟨k0, v0⟩
    intro d k
    simp only [insertAll, lastVal]
    rw [ih (dictInsert d k0 v0) k, lookup_dictInsert]
    rcases e : lastVal rest k with _ | w
    · by_cases hk : k = k0 <;> simp [orOpt, hk]
    · by_cases hk : k = k0 <;> simp [orOpt, hk]

theorem lookup_some_mem (d : Dict) :
    ∀ k v : List Nat, dictLookup d k = some v → (k, v) ∈ d := by
  induction d with
  | nil => intro k v h; simp [dictLookup] at h
  | cons kv rest ih =>
    rcases kv with ⟨k0, v0⟩
    intro k v h
    by_cases hk : k = k0
    · subst hk
      simp [dictLookup] at h
      rw [h]
      exact List.mem_cons_self _ _
    · simp [dictLookup, hk] at h
      exact List.mem_cons_of_mem _ (ih k v h)

theorem mem_dictKeys_dictInsert (d : Dict) (k v x : List Nat) :
    x ∈ dictKeys (dictInsert d k v) ↔ x ∈ dictKeys d ∨ x = k := by
  induction d with
  | nil => simp [dictInsert, dictKeys]
  | cons kv rest ih =>
    rcases kv with ⟨k0, v0⟩
    by_cases h : k0 = k
    · subst h
      have hd : dictInsert ((k0, v0) :: rest) k0 v = (k0, v) :: rest := by
        simp [dictInsert]
      rw [hd, dictKeys_cons, dictKeys_cons]
      simp only [List.mem_cons]
      tauto
    · have hd : dictInsert ((k0, v0) :: rest) k v = (k0, v0) :: dictInsert rest k v := by
        simp [dictInsert, h]
      rw [hd, dictKeys_cons, dictKeys_cons]
      simp only [List.mem_cons, ih]
      tauto

theorem uniqueKeys_dictInsert (d : Dict) (k v : List Nat) (h : UniqueKeys d) :
    UniqueKeys (dictInsert d k v) := by
  induction d with
  | nil => simp [dictInsert, UniqueKeys, dictKeys]
  | cons kv rest ih =>
    rcases kv with ⟨k0, v0⟩
    rw [UniqueKeys, dictKeys_cons] at h
    rcases List.nodup_cons.mp h with ⟨hnot, hrest⟩
    by_cases hk : k0 = k
    · have hd : dictInsert ((k0, v0) :: rest) k v = (k0, v) :: rest := by
        simp [dictInsert, hk]
      rw [UniqueKeys, hd, dictKeys_cons]
      exact List.nodup_cons.mpr ⟨hnot, hrest⟩
    · have hd : dictInsert ((k0, v0) :: rest) k v = (k0, v0) :: dictInsert rest k v := by
        simp [dictInsert, hk]
      rw [UniqueKeys, hd, dictKeys_cons]
      refine List.nodup_cons.mpr ⟨?_, ih hrest⟩
      intro hmem
      rcases (mem_dictKeys_dictInsert rest k v k0).mp hmem with hm | hm
      · exact hnot hm
      · exact hk hm

theorem uniqueKeys_insertAll (ps : List (List Nat × List Nat)) :
    ∀ d : Dict, UniqueKeys d → UniqueKeys (insertAll ps d) := by
  induction ps with
  | nil => intro d h; exact h
  | cons kv rest ih =>
    rcases kv with ⟨k, v⟩
    intro d h
    exact ih _ (uniqueKeys_dictInsert d k v h)

theorem lookup_none_of_not_mem (d : Dict) :
    ∀ k : List Nat, k ∉ dictKeys d → dictLookup d k = none := by
  induction d with
  | nil => intro k _; rfl
  | cons kv rest ih =>
    rcases kv with ⟨k0, v0⟩
    intro k h
    rw [dictKeys_cons] at h
    rcases not_or.mp (fun hor => h (List.mem_cons.mpr hor)) with ⟨hk, hrest⟩
    simp [dictLookup, hk, ih k hrest]

theorem dict_ext (d1 : Dict) :
    ∀ d2 : Dict, UniqueKeys d1 → dictKeys d1 = dictKeys d2 →
      (∀ k, dictLookup d1 k = dictLookup d2 k) → d1 = d2 := by
  induction d1 with
  | nil =>
    intro d2 _ hkeys _
    cases d2 with
    | nil => rfl
    | cons kv rest => simp [dictKeys] at hkeys
  | cons kv rest ih =>
    rcases kv with ⟨k0, v0⟩
    intro d2 hu hkeys hlook
    cases d2 with
    | nil => simp [dictKeys] at hkeys
    | cons kv2 rest2 =>
      rcases kv2 with ⟨k1, v1⟩
      rw [dictKeys_cons, dictKeys_cons] at hkeys
      injection hkeys with hk htail
      subst hk
      rw [UniqueKeys, dictKeys_cons] at hu
      rcases List.nodup_cons.mp hu with ⟨hnot, hrest⟩
      have hv : v0 = v1 := by
        have hl := hlook k0
        simp [dictLookup] at hl
        exact hl
      have htails : rest = rest2 := by
        refine ih rest2 hrest htail ?_
        intro k
        by_cases hk2 : k = k0
        · subst hk2
          rw [lookup_none_of_not_mem rest k hnot,
            lookup_none_of_not_mem rest2 k (htail ▸ hnot)]
        · have hl := hlook k
          simpa [dictLookup, hk2] using hl
      rw [hv, htails]

theorem dictKeys_dictInsert_of_mem (d : Dict) (k v : List Nat) (h : k ∈ dictKeys d) :
    dictKeys (dictInsert d k v) = dictKeys d := by
  induction d with
  | nil => simp [dictKeys] at h
  | cons kv rest ih =>
    rcases kv with ⟨k0, v0⟩
    by_cases hk : k0 = k
    · have hd : dictInsert ((k0, v0) :: rest) k v = (k0, v) :: rest := by
        simp [dictInsert, hk]
      rw [hd, dictKeys_cons, dictKeys_cons]
    · have hd : dictInsert ((k0, v0) :: rest) k v = (k0, v0) :: dictInsert rest k v := by
        simp [dictInsert, hk]
      rw [dictKeys_cons] at h
      rcases List.mem_cons.mp h with he | hm
      · exact absurd he.symm hk
      · rw [hd, dictKeys_cons, dictKeys_cons, ih hm]

theorem mem_dictKeys_insertAll (ps : List (List Nat × List Nat)) :
    ∀ (d : Dict) (x : List Nat), x ∈ dictKeys d → x ∈ dictKeys (insertAll ps d) := by
  induction ps with
  | nil => intro d x h; exact h
  | cons kv rest ih =>
    rcases kv with ⟨k, v⟩
    intro d x h
    exact ih _ x ((mem_dictKeys_dictInsert d k v x).mpr (Or.inl h))

theorem ps_keys_mem_insertAll (ps : List (List Nat × List Nat)) :
    ∀ (d : Dict) (q : List Nat × List Nat), q ∈ ps → q.1 ∈ dictKeys (insertAll ps d) := by
  induction ps with
  | nil => intro d q h; simp at h
  | cons kv rest ih =>
    rcases kv with ⟨k, v⟩
    intro d q hq
    rcases List.mem_cons.mp hq with he | hm
    · subst he
      simp only [insertAll]
      exact mem_dictKeys_insertAll rest _ _
        ((mem_dictKeys_dictInsert d k v k).mpr (Or.inr rfl))
    · simp only [insertAll]
      exact ih _ q hm

theorem dictKeys_insertAll_of_sub (ps : List (List Nat × List Nat)) :
    ∀ d : Dict, (∀ q ∈ ps, q.1 ∈ dictKeys d) → dictKeys (insertAll ps d) = dictKeys d := by
  induction ps with
  | nil => intro d _; rfl
  | cons kv rest ih =>
    rcases kv with ⟨k, v⟩
    intro d h
    have hk : k ∈ dictKeys d := h (k, v) (List.mem_cons_self _ _)
    have hkeys := dictKeys_dictInsert_of_mem d k v hk
    have hsub : ∀ q ∈ rest, q.1 ∈ dictKeys (dictInsert d k v) := by
      intro q hq
      rw [hkeys]
      exact h q (List.mem_cons_of_mem _ hq)
    simp only [insertAll]
    rw [ih (dictInsert d k v) hsub, hkeys]

theorem orOpt_orOpt (a b : Option (List Nat)) : orOpt a (orOpt a b) = orOpt a b := by
  cases a <;> rfl

theorem insertAll_idem (ps : List (List Nat × List Nat)) (d : Dict) (hu : UniqueKeys d) :
    insertAll ps (insertAll ps d) = insertAll ps d := by
  refine dict_ext (insertAll ps (insertAll ps d)) (insertAll ps d)
    (uniqueKeys_insertAll ps _ (uniqueKeys_insertAll ps d hu)) ?_ ?_
  · exact dictKeys_insertAll_of_sub ps (insertAll ps d)
      (fun q hq => ps_keys_mem_insertAll ps d q hq)
  · intro k
    rw [lookup_insertAll, lookup_insertAll]
    exact orOpt_orOpt _ _

/-- C8, amended: decode tolerates a repeated known key only when every
token is well-formed (exactly one `=` each; see the counterexample for the
failure case).  On the payload whose post-header text is
`model=AAA model=BBB serial=S`, starting from any listener state that is a
well-formed dictionary, decode succeeds and the record's `model` field is
`BBB` — the value of the last occurrence of the repeated key (the value of
the final token additionally keeps the repr trailing-quote artifact). -/
theorem c8_amended (st : Dict) (hu : UniqueKeys st) :
    getDiscoveryPacket (RecvEvent.datagram c8pay) st =
      (Outcome.ok (assignValues emptyPacket (insertAll c8pairs st)).1
        (assignValues emptyPacket (insertAll c8pairs st)).2, insertAll c8pairs st) ∧
    (assignValues emptyPacket (insertAll c8pairs st)).1.model = some (pyStr "BBB") := by
  have hparse : parseItems (itemsOf c8pay) = some c8pairs := by decide
  have hpi := processItems_of_parse (itemsOf c8pay) c8pairs hparse st
  constructor
  · show decodeDatagram c8pay st = _
    unfold decodeDatagram
    rw [hpi]
  · have hlast : lastVal c8pairs (pyStr "model") = some (pyStr "BBB") := by decide
    have hl : dictLookup (insertAll c8pairs st) (pyStr "model") = some (pyStr "BBB") := by
      rw [lookup_insertAll, hlast]
      rfl
    exact assignValues_model_mem (pyStr "BBB") (insertAll c8pairs st) emptyPacket
      (uniqueKeys_insertAll c8pairs st hu) (lookup_some_mem _ _ _ hl)

theorem c8_amended_witness :
    UniqueKeys ([] : Dict) ∧
    (getDiscoveryPacket (RecvEvent.datagram c8pay) [] =
      (Outcome.ok (assignValues emptyPacket (insertAll c8pairs [])).1
        (assignValues emptyPacket (insertAll c8pairs [])).2, insertAll c8pairs []) ∧
    (assignValues emptyPacket (insertAll c8pairs [])).1.model = some (pyStr "BBB")) :=
  ⟨List.nodup_nil, c8_amended [] List.nodup_nil⟩

/-- C9: decoding the identical datagram payload twice in two successive
calls yields records (and diagnostic lists) that are equal, for every
starting listener state that is a well-formed dictionary — re-inserting
the same key/value pairs leaves the accumulated dictionary unchanged. -/
theorem c9_idempotent_decode (payload : List Nat) (st : Dict) (hu : UniqueKeys st)
    (p1 p2 : FlexRadioDiscoveryPacket) (g1 g2 : List (List Nat × List Nat))
    (st1 st2 : Dict)
    (h1 : getDiscoveryPacket (RecvEvent.datagram payload) st = (Outcome.ok p1 g1, st1))
    (h2 : getDiscoveryPacket (RecvEvent.datagram payload) st1 = (Outcome.ok p2 g2, st2)) :
    p1 = p2 ∧ g1 = g2 := by
  rcases decode_ok_inv payload st p1 g1 st1 h1 with ⟨e1, hp1, hg1⟩
  rcases decode_ok_inv payload st1 p2 g2 st2 h2 with ⟨e2, hp2, hg2⟩
  rcases processItems_ok_parse (itemsOf payload) st st1 e1 with ⟨ps, hps, hst1⟩
  have e2b := processItems_of_parse (itemsOf payload) ps hps st1
  rw [e2] at e2b
  have hst2 : st2 = insertAll ps st1 := by
    injection e2b
  have hfix : insertAll ps st1 = st1 := by
    rw [hst1]
    exact insertAll_idem ps st hu
  have hsame : st2 = st1 := by rw [hst2, hfix]
  constructor
  · rw [hp1, hp2, hsame]
  · rw [hg1, hg2, hsame]

theorem c9_idempotent_decode_witness :
    UniqueKeys ([] : Dict) ∧
    getDiscoveryPacket (RecvEvent.datagram c9pay) [] =
      (Outcome.ok (assignValues emptyPacket c9dict).1 (assignValues emptyPacket c9dict).2,
        c9dict) ∧
    getDiscoveryPacket (RecvEvent.datagram c9pay) c9dict =
      (Outcome.ok (assignValues emptyPacket c9dict).1 (assignValues emptyPacket c9dict).2,
        c9dict) ∧
    ((assignValues emptyPacket c9dict).1 = (assignValues emptyPacket c9dict).1 ∧
      (assignValues emptyPacket c9dict).2 = (assignValues emptyPacket c9dict).2) :=
  ⟨List.nodup_nil, by decide, by decide,
   c9_idempotent_decode c9pay [] List.nodup_nil
     (assignValues emptyPacket c9dict).1 (assignValues emptyPacket c9dict).1
     (assignValues emptyPacket c9dict).2 (assignValues emptyPacket c9dict).2
     c9dict c9dict (by decide) (by decide)⟩
